import Mathlib

/-!
Verification of the estuary autoretrieve advertisement engine
(src/autoretrieve/autoretrieve.go) against its specification.

Bytes are modelled as natural numbers (every byte the embedded code produces
is below 256); byte slices are lists of naturals.  Go `uint` values are
naturals, with an explicit `% 2 ^ 32` wherever the source converts to
`uint32`.  Functions returning `(T, error)` become `Option`-valued functions,
except where a runtime panic must be distinguished from a returned error, in
which case `GoResult` is used.
-/

namespace Estuary

/-- Result of calling a Go function that returns `(T, error)`: a value, a
non-nil error, or a runtime panic. -/
inductive GoResult (α : Type) where
  | ok (a : α)
  | err
  | panicked
deriving DecidableEq

/-- contextParams (autoretrieve.go lines 348-352): the triple carried by a
context ID.  The peer identity is its serialized byte form. -/
structure contextParams where
  provider : List Nat
  firstContentID : Nat
  count : Nat
deriving DecidableEq

/-- binary.BigEndian.PutUint32 into a fresh 4-byte slice, combined with Go's
truncating `uint → uint32` conversion applied at the call sites
(autoretrieve.go lines 357-358): the value is reduced mod 2^32 and written as
four big-endian bytes. -/
def putUint32 (n : Nat) : List Nat :=
  let v := n % 2 ^ 32
  [v / 2 ^ 24 % 256, v / 2 ^ 16 % 256, v / 2 ^ 8 % 256, v % 256]

/-- binary.BigEndian.Uint32 applied to (the first four bytes of) a byte
slice; the source always passes exactly four bytes. -/
def beUint32 (b : List Nat) : Nat :=
  b.getD 0 0 * 2 ^ 24 + b.getD 1 0 * 2 ^ 16 + b.getD 2 0 * 2 ^ 8 + b.getD 3 0

/-- Modelled from the spec: the external libp2p `peer.ID.MarshalBinary`,
which returns the identity's raw bytes and never fails ("the announcing
peer's serialized identity ... no length prefix"). -/
def peerMarshalBinary (p : List Nat) : List Nat := p

/-- Unsigned LEB128 varint reader (helper for the multihash shape check of
the external peer-identity parser): returns the decoded value and the
remaining bytes, or none when the input ends inside a varint. -/
def readUvarintAux (shift acc : Nat) : List Nat → Option (Nat × List Nat)
  | [] => none
  | b :: rest =>
    if b < 128 then some (acc + b * 2 ^ shift, rest)
    else readUvarintAux (shift + 7) (acc + (b - 128) * 2 ^ shift) rest

/-- Unsigned varint reader entry point. -/
def readUvarint (b : List Nat) : Option (Nat × List Nat) :=
  readUvarintAux 0 0 b

/-- Modelled from the spec: validity of a serialized peer identity as checked
by the external `peer.IDFromBytes` ("the remaining tail is parsed as a peer
identity"), i.e. the bytes form a multihash: a varint code, a varint digest
length, and exactly that many digest bytes. -/
def validPeerID (b : List Nat) : Bool :=
  match readUvarint b with
  | none => false
  | some (_, rest) =>
    match readUvarint rest with
    | none => false
    | some (len, digest) => digest.length == len

/-- Modelled from the spec: the external `peer.IDFromBytes`, which accepts
exactly the valid serialized peer identities and returns them unchanged. -/
def peerIDFromBytes (b : List Nat) : Option (List Nat) :=
  if validPeerID b then some b else none

/-- makeContextID (autoretrieve.go lines 355-366): 4 big-endian bytes of
firstContentID, 4 big-endian bytes of count, then the serialized peer
identity.  The source's only error path is peer.ID.MarshalBinary, which
never fails, so the model is total. -/
def makeContextID (params : contextParams) : List Nat :=
  putUint32 params.firstContentID ++ putUint32 params.count ++
    peerMarshalBinary params.provider

/-- readContextID (autoretrieve.go lines 369-380).  The source evaluates
`contextID[8:]` with no length guard, so an input shorter than 8 bytes makes
the slice expression panic at runtime instead of reaching an error return;
with at least 8 bytes, the tail is parsed as a peer identity (error on
failure) and the two 4-byte fields are read back. -/
def readContextID (contextID : List Nat) : GoResult contextParams :=
  if contextID.length < 8 then .panicked
  else
    match peerIDFromBytes (contextID.drop 8) with
    | none => .err
    | some peerID =>
      .ok ⟨peerID, beUint32 (contextID.take 4), beUint32 ((contextID.drop 4).take 4)⟩

/-- Reading back four big-endian bytes of a truncated value recovers the
value mod 2^32. -/
theorem beUint32_putUint32_fields (n : Nat) :
    n % 2 ^ 32 / 2 ^ 24 % 256 * 2 ^ 24 + n % 2 ^ 32 / 2 ^ 16 % 256 * 2 ^ 16 +
      n % 2 ^ 32 / 2 ^ 8 % 256 * 2 ^ 8 + n % 2 ^ 32 % 256 = n % 2 ^ 32 := by
  simp only [show (2 : Nat) ^ 32 = 4294967296 by norm_num,
    show (2 : Nat) ^ 24 = 16777216 by norm_num,
    show (2 : Nat) ^ 16 = 65536 by norm_num,
    show (2 : Nat) ^ 8 = 256 by norm_num]
  omega

/-- Decoding a buffer made of 8 explicit bytes followed by a valid peer
identity succeeds and reads the two big-endian fields. -/
theorem readContextID_8cons (b0 b1 b2 b3 b4 b5 b6 b7 : Nat) (p : List Nat)
    (hp : validPeerID p = true) :
    readContextID (b0 :: b1 :: b2 :: b3 :: b4 :: b5 :: b6 :: b7 :: p) =
      .ok ⟨p, b0 * 2 ^ 24 + b1 * 2 ^ 16 + b2 * 2 ^ 8 + b3,
        b4 * 2 ^ 24 + b5 * 2 ^ 16 + b6 * 2 ^ 8 + b7⟩ := by
  have hlen : ¬ ((b0 :: b1 :: b2 :: b3 :: b4 :: b5 :: b6 :: b7 :: p).length < 8) := by
    simp only [List.length_cons]
    omega
  have hpeer : peerIDFromBytes p = some p := by
    simp [peerIDFromBytes, hp]
  have hdrop : (b0 :: b1 :: b2 :: b3 :: b4 :: b5 :: b6 :: b7 :: p).drop 8 = p := rfl
  rw [readContextID, if_neg hlen, hdrop, hpeer]
  rfl

/-- Core round-trip fact: decoding an encoded triple with a valid peer
recovers the peer and both integers mod 2^32. -/
theorem readContextID_makeContextID_mod (p : List Nat) (f c : Nat)
    (hp : validPeerID p = true) :
    readContextID (makeContextID ⟨p, f, c⟩) = .ok ⟨p, f % 2 ^ 32, c % 2 ^ 32⟩ := by
  have hmk : makeContextID ⟨p, f, c⟩ =
      f % 2 ^ 32 / 2 ^ 24 % 256 :: f % 2 ^ 32 / 2 ^ 16 % 256 ::
      f % 2 ^ 32 / 2 ^ 8 % 256 :: f % 2 ^ 32 % 256 ::
      c % 2 ^ 32 / 2 ^ 24 % 256 :: c % 2 ^ 32 / 2 ^ 16 % 256 ::
      c % 2 ^ 32 / 2 ^ 8 % 256 :: c % 2 ^ 32 % 256 :: p := rfl
  rw [hmk, readContextID_8cons _ _ _ _ _ _ _ _ p hp]
  simp only [GoResult.ok.injEq, contextParams.mk.injEq]
  exact ⟨trivial, beUint32_putUint32_fields f, beUint32_putUint32_fields c⟩

/-- C1: for every valid triple (peer identity accepted by the peer parser,
firstContentID and count representable in their 4-byte fields), decoding the
bytes produced by encoding the triple returns the same triple: readContextID
is an exact left inverse of makeContextID. -/
theorem readContextID_makeContextID (p : List Nat) (f c : Nat)
    (hp : validPeerID p = true) (hf : f < 2 ^ 32) (hc : c < 2 ^ 32) :
    readContextID (makeContextID ⟨p, f, c⟩) = .ok ⟨p, f, c⟩ := by
  rw [readContextID_makeContextID_mod p f c hp, Nat.mod_eq_of_lt hf, Nat.mod_eq_of_lt hc]

theorem readContextID_makeContextID_witness :
    validPeerID [0, 1, 42] = true ∧ (3 : Nat) < 2 ^ 32 ∧ (7 : Nat) < 2 ^ 32 ∧
      readContextID (makeContextID ⟨[0, 1, 42], 3, 7⟩) = .ok ⟨[0, 1, 42], 3, 7⟩ :=
  ⟨by decide, by decide, by decide,
    readContextID_makeContextID [0, 1, 42] 3 7 (by decide) (by decide) (by decide)⟩

/-- C2: the source slices `contextID[8:]` before any length check, so every
input shorter than 8 bytes makes readContextID panic at runtime; it does not
return the malformed-input error the claim describes. -/
theorem readContextID_short_input_panics (b : List Nat) (h : b.length < 8) :
    readContextID b = .panicked := by
  rw [readContextID, if_pos h]

theorem readContextID_short_input_panics_witness :
    ([] : List Nat).length < 8 ∧ readContextID [] = .panicked :=
  ⟨by decide, readContextID_short_input_panics [] (by decide)⟩

/-- C10: makeContextID reduces both firstContentID and count mod 2^32, so
triples whose integer fields agree mod 2^32 encode to byte-identical context
IDs, and decoding recovers the values mod 2^32 rather than the originals. -/
theorem contextID_codec_mod32 (p : List Nat) (f c f2 c2 : Nat)
    (hp : validPeerID p = true)
    (hf : f % 2 ^ 32 = f2 % 2 ^ 32) (hc : c % 2 ^ 32 = c2 % 2 ^ 32) :
    makeContextID ⟨p, f, c⟩ = makeContextID ⟨p, f2, c2⟩ ∧
      readContextID (makeContextID ⟨p, f, c⟩) = .ok ⟨p, f % 2 ^ 32, c % 2 ^ 32⟩ := by
  constructor
  · simp only [makeContextID, putUint32, hf, hc]
  · exact readContextID_makeContextID_mod p f c hp

theorem contextID_codec_mod32_witness :
    validPeerID [0, 1, 42] = true ∧
      (2 ^ 32 + 5) % 2 ^ 32 = (5 : Nat) % 2 ^ 32 ∧
      (3 * 2 ^ 32 + 7) % 2 ^ 32 = (7 : Nat) % 2 ^ 32 ∧
      (makeContextID ⟨[0, 1, 42], 2 ^ 32 + 5, 3 * 2 ^ 32 + 7⟩ =
        makeContextID ⟨[0, 1, 42], 5, 7⟩ ∧
      readContextID (makeContextID ⟨[0, 1, 42], 2 ^ 32 + 5, 3 * 2 ^ 32 + 7⟩) =
        .ok ⟨[0, 1, 42], (2 ^ 32 + 5) % 2 ^ 32, (3 * 2 ^ 32 + 7) % 2 ^ 32⟩) :=
  ⟨by decide, by decide, by decide,
    contextID_codec_mod32 [0, 1, 42] (2 ^ 32 + 5) (3 * 2 ^ 32 + 7) 5 7
      (by decide) (by decide) (by decide)⟩

/-! ## Batch planning (Provider.Run, autoretrieve.go lines 238-246)

The advertisement loop iterates `firstContentID` from 0 while
`firstContentID <= lastContent.ID`, stepping by `batchSize`, and computes
`count := batchSize; remaining := lastContent.ID - firstContentID;
if remaining < count { count = remaining }`, i.e.
`count = min batchSize remaining`.  With a positive width the loop executes
exactly `highest / width + 1` iterations; the fuel argument of `planLoop`
makes that recursion structural (the source's width is the constant 25000,
set in NewProvider at line 182). -/

/-- One iteration of the batch loop: emit the window at firstContentID and
continue at firstContentID + width while firstContentID ≤ highest. -/
def planLoop (highest width : Nat) : Nat → Nat → List (Nat × Nat)
  | 0, _ => []
  | fuel + 1, firstContentID =>
    if firstContentID ≤ highest then
      (firstContentID, min width (highest - firstContentID)) ::
        planLoop highest width fuel (firstContentID + width)
    else []

/-- The batch plan: the ordered list of (firstContentID, count) windows the
loop advertises for a catalog whose highest content ID is `highest`. -/
def plan (highest width : Nat) : List (Nat × Nat) :=
  planLoop highest width (highest / width + 1) 0

theorem planLoop_spec (h w : Nat) (hw : 0 < w) :
    ∀ fuel k, h / w + 1 - k ≤ fuel →
      planLoop h w fuel (k * w) =
        (List.range (h / w + 1 - k)).map
          fun i => ((k + i) * w, min w (h - (k + i) * w)) := by
  intro fuel
  induction fuel with
  | zero =>
    intro k hk
    have h0 : h / w + 1 - k = 0 := Nat.le_zero.mp hk
    rw [h0]
    rfl
  | succ n ih =>
    intro k hk
    by_cases hkle : k ≤ h / w
    · have hkwh : k * w ≤ h := (Nat.le_div_iff_mul_le hw).mp hkle
      have hcount : h / w + 1 - k = (h / w + 1 - (k + 1)) + 1 := by omega
      rw [planLoop, if_pos hkwh, hcount, List.range_succ_eq_map, List.map_cons,
        List.map_map]
      have hstep : k * w + w = (k + 1) * w := by ring
      have htail := ih (k + 1) (by omega)
      rw [hstep, htail]
      have hfun :
          ((fun i => ((k + i) * w, min w (h - (k + i) * w))) ∘ Nat.succ) =
            fun i => ((k + 1 + i) * w, min w (h - (k + 1 + i) * w)) := by
        funext i
        have hidx : k + Nat.succ i = k + 1 + i := by omega
        simp [Function.comp, hidx]
      rw [hfun]
      simp
    · have hlt : h / w < k := Nat.lt_of_not_le hkle
      have hgt : h < k * w := (Nat.div_lt_iff_lt_mul hw).mp hlt
      have h0 : h / w + 1 - k = 0 := by omega
      rw [planLoop, if_neg (not_le.mpr hgt), h0]
      rfl

theorem plan_eq_map (h w : Nat) (hw : 0 < w) :
    plan h w = (List.range (h / w + 1)).map fun k => (k * w, min w (h - k * w)) := by
  have hmain := planLoop_spec h w hw (h / w + 1) 0 (by simp)
  simpa [plan] using hmain

/-- C5: the batch plan is a pure function of (highestContentID, width):
windows start at consecutive multiples of the width, with
count = min(width, highest - first); plan(60000, 25000) is exactly the three
windows (0,25000), (25000,25000), (50000,10000). -/
theorem plan_windows :
    (∀ h w, 0 < w →
      plan h w = (List.range (h / w + 1)).map fun k => (k * w, min w (h - k * w))) ∧
    plan 60000 25000 = [(0, 25000), (25000, 25000), (50000, 10000)] :=
  ⟨fun h w hw => plan_eq_map h w hw, by decide⟩

theorem plan_windows_witness :
    0 < 25000 ∧
      plan 60000 25000 =
        (List.range (60000 / 25000 + 1)).map
          fun k => (k * 25000, min 25000 (60000 - k * 25000)) :=
  ⟨by decide, plan_windows.1 60000 25000 (by decide)⟩

/-! ## MultihashCursor (Iterator / NewIterator, autoretrieve.go lines 87-146)

NewIterator runs
`SELECT objects.cid FROM objects LEFT JOIN obj_refs ON objects.id =
obj_refs.object WHERE obj_refs.content BETWEEN ? AND ?` with parameters
`firstContentID` and `firstContentID + count`; SQL BETWEEN is inclusive on
both ends.  The join result is modelled as a list of rows, each carrying the
referencing content ID and the stored CID; CID parsing is done by the
external go-cid library, so a row carries directly the multihash its CID
parses to, or `none` when the stored bytes are not a parseable CID. -/

/-- One row of the objects/obj_refs join: the content ID referencing the
object, and the multihash its stored CID string parses to (`none` models a
CID string the external parser rejects; NewIterator logs and skips those). -/
structure CatalogObject where
  content : Nat
  cid : Option (List Nat)
deriving DecidableEq

/-- Iterator (autoretrieve.go lines 87-92). -/
structure Iterator where
  mhs : List (List Nat)
  index : Nat
  firstContentID : Nat
  count : Nat
deriving DecidableEq

/-- NewIterator (autoretrieve.go lines 94-134): select the CID strings of
rows whose content ID lies BETWEEN firstContentID AND firstContentID+count
(inclusive), fail when that selection is empty, then keep the multihashes of
the CIDs that parse, skipping parse failures. -/
def NewIterator (db : List CatalogObject) (firstContentID count : Nat) :
    Option Iterator :=
  let cidStrings := (db.filter fun o =>
    decide (firstContentID ≤ o.content) &&
      decide (o.content ≤ firstContentID + count)).map CatalogObject.cid
  if cidStrings.isEmpty then none
  else some ⟨cidStrings.filterMap id, 0, firstContentID, count⟩

/-- Iterator.Next (autoretrieve.go lines 136-146): io.EOF once the index
reaches the end, otherwise the hash at the index and the advanced cursor. -/
def Iterator.Next (iter : Iterator) : Option (List Nat × Iterator) :=
  if iter.index = iter.mhs.length then none
  else some (iter.mhs.getD iter.index [], { iter with index := iter.index + 1 })

/-- Follows the spec's words, for comparison with the source: the hashes of
the half-open window [firstContentID, firstContentID + count). -/
def specWindowHashes (db : List CatalogObject) (firstContentID count : Nat) :
    List (List Nat) :=
  (db.filter fun o =>
    decide (firstContentID ≤ o.content) &&
      decide (o.content < firstContentID + count)).filterMap CatalogObject.cid

/-- C4 counterexample: a catalog whose only row sits at content ID
firstContentID + count (here 5 = 0 + 5).  The half-open reading of the claim
says that row contributes no hash, but the cursor built by NewIterator does
contain its hash, because SQL BETWEEN is inclusive. -/
theorem newIterator_halfOpen_refuted :
    (NewIterator [⟨5, some [1]⟩] 0 5).map Iterator.mhs = some [[1]] ∧
      ¬ (NewIterator [⟨5, some [1]⟩] 0 5).map Iterator.mhs =
          some (specWindowHashes [⟨5, some [1]⟩] 0 5) := by
  constructor
  · decide
  · decide

/-- C4 amended: a cursor built by NewIterator resolves hashes for exactly
the content IDs in the closed range [firstContentID, firstContentID+count]
(SQL BETWEEN is inclusive on both ends): its hash list is the catalog-ordered
list of parseable hashes of the rows in that closed range. -/
theorem newIterator_inclusive_range (db : List CatalogObject)
    (firstContentID count : Nat) (it : Iterator)
    (h : NewIterator db firstContentID count = some it) :
    it.mhs = (db.filter fun o =>
      decide (firstContentID ≤ o.content) &&
        decide (o.content ≤ firstContentID + count)).filterMap CatalogObject.cid := by
  unfold NewIterator at h
  by_cases hemp : ((db.filter fun o =>
      decide (firstContentID ≤ o.content) &&
        decide (o.content ≤ firstContentID + count)).map CatalogObject.cid).isEmpty
  · simp [hemp] at h
  · simp only [hemp, Bool.false_eq_true, if_false, Option.some.injEq] at h
    rw [← h]
    simp [List.filterMap_map]

theorem newIterator_inclusive_range_witness :
    NewIterator [⟨5, some [1]⟩] 0 5 = some ⟨[[1]], 0, 0, 5⟩ ∧
      Iterator.mhs ⟨[[1]], 0, 0, 5⟩ =
        (([⟨5, some [1]⟩] : List CatalogObject).filter fun o =>
          decide (0 ≤ o.content) && decide (o.content ≤ 0 + 5)).filterMap
            CatalogObject.cid :=
  ⟨by decide, newIterator_inclusive_range [⟨5, some [1]⟩] 0 5 ⟨[[1]], 0, 0, 5⟩ (by decide)⟩

/-- C9 counterexample: a row inside the window whose CID does not parse.
The selection is non-empty, so construction succeeds, yet every parse is
skipped and the returned cursor is empty: an empty cursor is handed to the
caller instead of an error. -/
theorem newIterator_empty_cursor_refuted :
    NewIterator [⟨3, none⟩] 0 5 = some ⟨[], 0, 0, 5⟩ := by
  decide

/-- C9 amended: construction fails exactly when no catalog row lies in the
window's (inclusive) range; when it succeeds, the cursor holds the hashes of
the matched rows whose CIDs parse — rows with unparseable CIDs are skipped,
so the cursor can hold fewer (even zero) hashes than matched rows. -/
theorem newIterator_none_iff_no_rows (db : List CatalogObject)
    (firstContentID count : Nat) :
    (NewIterator db firstContentID count = none ↔
      (db.filter fun o =>
        decide (firstContentID ≤ o.content) &&
          decide (o.content ≤ firstContentID + count)) = []) ∧
    ∀ it, NewIterator db firstContentID count = some it →
      it.mhs = (db.filter fun o =>
        decide (firstContentID ≤ o.content) &&
          decide (o.content ≤ firstContentID + count)).filterMap CatalogObject.cid := by
  constructor
  · unfold NewIterator
    by_cases hemp : ((db.filter fun o =>
        decide (firstContentID ≤ o.content) &&
          decide (o.content ≤ firstContentID + count)).map CatalogObject.cid).isEmpty
    · simp only [hemp, if_true, true_iff]
      rw [List.isEmpty_iff, List.map_eq_nil_iff] at hemp
      exact hemp
    · simp only [hemp, Bool.false_eq_true, if_false]
      constructor
      · intro hcontra
        exact absurd hcontra (by simp)
      · intro hnil
        rw [List.isEmpty_iff, List.map_eq_nil_iff] at hemp
        exact absurd hnil hemp
  · intro it h
    unfold NewIterator at h
    by_cases hemp : ((db.filter fun o =>
        decide (firstContentID ≤ o.content) &&
          decide (o.content ≤ firstContentID + count)).map CatalogObject.cid).isEmpty
    · simp [hemp] at h
    · simp only [hemp, Bool.false_eq_true, if_false, Option.some.injEq] at h
      rw [← h]
      simp [List.filterMap_map]

theorem newIterator_none_iff_no_rows_witness :
    (NewIterator [⟨3, (none : Option (List Nat))⟩] 10 5 = none ∧
      (([⟨3, none⟩] : List CatalogObject).filter fun o =>
        decide (10 ≤ o.content) && decide (o.content ≤ 10 + 5)) = []) ∧
    Iterator.mhs ⟨[], 0, 0, 5⟩ =
      (([⟨3, none⟩] : List CatalogObject).filter fun o =>
        decide (0 ≤ o.content) && decide (o.content ≤ 0 + 5)).filterMap
          CatalogObject.cid :=
  ⟨⟨(newIterator_none_iff_no_rows [⟨3, none⟩] 10 5).1.mpr (by decide), by decide⟩,
    (newIterator_none_iff_no_rows [⟨3, none⟩] 0 5).2 ⟨[], 0, 0, 5⟩ (by decide)⟩

/-! ## Reconciliation loop (Provider.Run, autoretrieve.go lines 186-342)

One tick of the advertisement loop.  Time stamps are naturals; engine calls
(NotifyPut / NotifyRemove) are recorded as emitted calls and their success or
failure is supplied by an environment oracle indexed by the node handle and
the window's firstContentID.  The database rows live in lists; `db.Last` on
the catalog is the last element of the (ID-ordered) content list. -/

/-- util.Content: only the primary key matters here. -/
structure Content where
  ID : Nat
deriving DecidableEq

/-- Autoretrieve (autoretrieve.go lines 25-34), restricted to the fields the
loop reads.  `addrInfo` is the outcome of the AddrInfo() method (lines
36-44), whose parsing is done by the external libp2p address parser: `some`
carries the parsed peer identity, `none` models a parse failure. -/
structure Autoretrieve where
  Handle : String
  LastConnection : Nat
  addrInfo : Option (List Nat)
deriving DecidableEq

/-- PublishedBatch (autoretrieve.go lines 47-53).  In the source the gorm
column tag on FirstContentID is `unique` on that single column. -/
structure PublishedBatch where
  FirstContentID : Nat
  Count : Nat
  AutoretrieveHandle : String
deriving DecidableEq

/-- An engine call the tick issues: NotifyPut (publish) or NotifyRemove
(retract), with the peer identity and the context ID passed. -/
inductive Call where
  | publish (peerID contextID : List Nat)
  | retract (peerID contextID : List Nat)
deriving DecidableEq

/-- The context ID carried by a call. -/
def Call.contextID : Call → List Nat
  | .publish _ c => c
  | .retract _ c => c

/-- Environment oracle: success or failure of each engine call, indexed by
the node handle and the window's firstContentID.  NotifyRemove's outcome is
never inspected by the loop (its error is only logged, line 316), so no
field for it is needed. -/
structure Oracle where
  putOK : String → Nat → Bool

/-- db.Create of a PublishedBatch row (line 296).  The gorm schema declares
FirstContentID unique by itself (line 50), so the insert fails whenever any
existing row — for any handle — already carries that FirstContentID; the
source only logs that failure. -/
def createPublishedBatch (rows : List PublishedBatch) (row : PublishedBatch) :
    Option (List PublishedBatch) :=
  if rows.any fun r => r.FirstContentID == row.FirstContentID then none
  else some (rows ++ [row])

/-- db.Save of the updated Count on the row previously selected by
(autoretrieve_handle, first_content_id) (lines 331-332). -/
def savePublishedBatchCount (rows : List PublishedBatch) (handle : String)
    (firstContentID count : Nat) : List PublishedBatch :=
  rows.map fun r =>
    if r.AutoretrieveHandle == handle && r.FirstContentID == firstContentID
    then { r with Count := count } else r

/-- The ledger lookup of lines 252-257: rows matching
`autoretrieve_handle = ? AND first_content_id = ?`. -/
def lookupBatches (ledger : List PublishedBatch) (handle : String)
    (firstContentID : Nat) : List PublishedBatch :=
  ledger.filter fun r =>
    r.AutoretrieveHandle == handle && r.FirstContentID == firstContentID

/-- One window of the per-node loop (lines 238-337): look the ledger row up;
skip when it exists with the planned count (case 1); otherwise mint the
context ID with the configured batchSize (lines 272-276), then either
publish and insert the row (case 2, lines 283-304) or retract, re-publish
and update the row (case 3, lines 308-336).  Publish failure leaves the
ledger untouched; retract failure is only logged and stops nothing. -/
def stepWindow (oracle : Oracle) (handle : String) (peerID : List Nat)
    (batchSize : Nat) (fc : Nat × Nat) (ledger : List PublishedBatch) :
    List PublishedBatch × List Call :=
  match lookupBatches ledger handle fc.1 with
  | [] =>
    -- case 2: not advertised: publish, then create the DB row
    let contextID := makeContextID ⟨peerID, fc.1, batchSize⟩
    if oracle.putOK handle fc.1 then
      match createPublishedBatch ledger ⟨fc.1, fc.2, handle⟩ with
      | some rows => (rows, [.publish peerID contextID])
      | none => (ledger, [.publish peerID contextID])
    else (ledger, [.publish peerID contextID])
  | publishedBatch :: _ =>
    if publishedBatch.Count == fc.2 then
      -- case 1: fully advertised, or no changes
      (ledger, [])
    else
      -- case 3: incompletely advertised: retract, re-publish, update row
      let contextID := makeContextID ⟨peerID, fc.1, batchSize⟩
      if oracle.putOK handle fc.1 then
        (savePublishedBatchCount ledger handle fc.1 fc.2,
          [.retract peerID contextID, .publish peerID contextID])
      else (ledger, [.retract peerID contextID, .publish peerID contextID])

/-- The window loop of one node, over the planned windows in order. -/
def stepWindows (oracle : Oracle) (handle : String) (peerID : List Nat)
    (batchSize : Nat) : List (Nat × Nat) → List PublishedBatch →
    List PublishedBatch × List Call
  | [], ledger => (ledger, [])
  | fc :: rest, ledger =>
    let s := stepWindow oracle handle peerID batchSize fc ledger
    let t := stepWindows oracle handle peerID batchSize rest s.1
    (t.1, s.2 ++ t.2)

/-- One node of the tick (lines 221-337): skip it when offline
(time.Since(LastConnection) > advertisementInterval, line 225) or when its
address info does not parse (lines 231-235); otherwise run its windows. -/
def stepNode (oracle : Oracle) (now interval batchSize highest : Nat)
    (node : Autoretrieve) (ledger : List PublishedBatch) :
    List PublishedBatch × List Call :=
  if interval < now - node.LastConnection then (ledger, [])
  else
    match node.addrInfo with
    | none => (ledger, [])
    | some peerID =>
      stepWindows oracle node.Handle peerID batchSize (plan highest batchSize) ledger

/-- The node loop of one tick. -/
def stepNodes (oracle : Oracle) (now interval batchSize highest : Nat) :
    List Autoretrieve → List PublishedBatch → List PublishedBatch × List Call
  | [], ledger => (ledger, [])
  | node :: rest, ledger =>
    let s := stepNode oracle now interval batchSize highest node ledger
    let t := stepNodes oracle now interval batchSize highest rest s.1
    (t.1, s.2 ++ t.2)

/-- The persistent state the tick reads and writes: the content catalog (in
ascending ID order, so db.Last is the last element), the registered
autoretrieves, and the published_batches ledger. -/
structure DB where
  contents : List Content
  autoretrieves : List Autoretrieve
  published : List PublishedBatch
deriving DecidableEq

/-- One tick of Provider.Run (lines 200-338): read the highest content ID
(skipping the whole tick when the catalog is empty, lines 203-212), then run
every node.  Returns the updated state and the engine calls issued. -/
def runTick (oracle : Oracle) (now interval batchSize : Nat) (db : DB) :
    DB × List Call :=
  match db.contents.getLast? with
  | none => (db, [])
  | some lastContent =>
    let r := stepNodes oracle now interval batchSize lastContent.ID
      db.autoretrieves db.published
    ({ db with published := r.1 }, r.2)

/-- The windows the tick plans for the current catalog: none when the
catalog is empty (the tick is skipped), the batch plan for the highest
content ID otherwise. -/
def plannedWindows (batchSize : Nat) (db : DB) : List (Nat × Nat) :=
  match db.contents.getLast? with
  | none => []
  | some lastContent => plan lastContent.ID batchSize

/-- Environment in which every engine call succeeds. -/
def allOK : Oracle := ⟨fun _ _ => true⟩

/-- C3: the gorm schema of PublishedBatch (line 50) declares FirstContentID
unique by itself, not the pair (AutoretrieveHandle, FirstContentID).  With
two online nodes and one planned window, the tick publishes for both nodes
but the second node's ledger row is rejected by the single-column constraint:
only node "a" gets a row, node "b" cannot hold its own row for the same
firstContentID, contradicting the pair-key claim. -/
theorem publishedBatch_unique_key_collision :
    (runTick allOK 0 5 25000
        ⟨[⟨0⟩], [⟨"a", 0, some [0, 1, 42]⟩, ⟨"b", 0, some [0, 1, 43]⟩], []⟩).1.published
        = [⟨0, 0, "a"⟩] ∧
      (runTick allOK 0 5 25000
        ⟨[⟨0⟩], [⟨"a", 0, some [0, 1, 42]⟩, ⟨"b", 0, some [0, 1, 43]⟩], []⟩).2
        = [.publish [0, 1, 42] (makeContextID ⟨[0, 1, 42], 0, 25000⟩),
           .publish [0, 1, 43] (makeContextID ⟨[0, 1, 43], 0, 25000⟩)] := by
  constructor
  · decide
  · decide

/-- C6: when the ledger row of a window exists with a count different from
the planned one, the step issues exactly one retract followed by one publish,
both with the same context ID, no matter whether the retract succeeds (its
outcome is never inspected); if the publish succeeds the row's count is
updated to the planned count, and if it fails the ledger is left unmodified. -/
theorem republish_retract_then_publish (oracle : Oracle) (handle : String)
    (peerID : List Nat) (batchSize : Nat) (fc : Nat × Nat)
    (ledger : List PublishedBatch) (row : PublishedBatch)
    (rest : List PublishedBatch)
    (hlook : lookupBatches ledger handle fc.1 = row :: rest)
    (hne : row.Count ≠ fc.2) :
    stepWindow oracle handle peerID batchSize fc ledger =
      (if oracle.putOK handle fc.1
        then savePublishedBatchCount ledger handle fc.1 fc.2
        else ledger,
       [.retract peerID (makeContextID ⟨peerID, fc.1, batchSize⟩),
        .publish peerID (makeContextID ⟨peerID, fc.1, batchSize⟩)]) := by
  have hbeq : (row.Count == fc.2) = false := by
    simp [hne]
  unfold stepWindow
  rw [hlook]
  by_cases hput : oracle.putOK handle fc.1 = true
  · simp [hbeq, hput]
  · simp [hbeq, hput]

theorem republish_retract_then_publish_witness :
    lookupBatches [⟨0, 3, "a"⟩] "a" 0 = ⟨0, 3, "a"⟩ :: [] ∧ (3 : Nat) ≠ 5 ∧
      stepWindow allOK "a" [0, 1, 42] 25000 (0, 5) [⟨0, 3, "a"⟩] =
        (if allOK.putOK "a" 0
          then savePublishedBatchCount [⟨0, 3, "a"⟩] "a" 0 5
          else [⟨0, 3, "a"⟩],
         [.retract [0, 1, 42] (makeContextID ⟨[0, 1, 42], 0, 25000⟩),
          .publish [0, 1, 42] (makeContextID ⟨[0, 1, 42], 0, 25000⟩)]) :=
  ⟨by decide, by decide,
    republish_retract_then_publish allOK "a" [0, 1, 42] 25000 (0, 5)
      [⟨0, 3, "a"⟩] ⟨0, 3, "a"⟩ [] (by decide) (by decide)⟩

theorem stepWindow_skip (oracle : Oracle) (handle : String) (peerID : List Nat)
    (batchSize : Nat) (fc : Nat × Nat) (ledger : List PublishedBatch)
    (hrow : (lookupBatches ledger handle fc.1).head?.map PublishedBatch.Count =
      some fc.2) :
    stepWindow oracle handle peerID batchSize fc ledger = (ledger, []) := by
  rcases hfil : lookupBatches ledger handle fc.1 with _ | ⟨b, rest⟩
  · rw [hfil] at hrow
    simp at hrow
  · rw [hfil] at hrow
    simp only [List.head?_cons, Option.map_some', Option.some.injEq] at hrow
    unfold stepWindow
    rw [hfil]
    simp [hrow]

theorem stepWindows_skip (oracle : Oracle) (handle : String) (peerID : List Nat)
    (batchSize : Nat) :
    ∀ (ws : List (Nat × Nat)) (ledger : List PublishedBatch),
      (∀ fc ∈ ws, (lookupBatches ledger handle fc.1).head?.map PublishedBatch.Count =
        some fc.2) →
      stepWindows oracle handle peerID batchSize ws ledger = (ledger, []) := by
  intro ws
  induction ws with
  | nil =>
    intro ledger hws
    rfl
  | cons fc rest ih =>
    intro ledger hws
    have h1 := stepWindow_skip oracle handle peerID batchSize fc ledger
      (hws fc (by simp))
    have h2 := ih ledger (fun fc2 hfc2 => hws fc2 (by simp [hfc2]))
    simp only [stepWindows, h1, h2, List.nil_append]

theorem stepNode_skip (oracle : Oracle) (now interval batchSize highest : Nat)
    (node : Autoretrieve) (ledger : List PublishedBatch)
    (hconv : now - node.LastConnection ≤ interval →
      ∀ fc ∈ plan highest batchSize,
        (lookupBatches ledger node.Handle fc.1).head?.map PublishedBatch.Count =
          some fc.2) :
    stepNode oracle now interval batchSize highest node ledger = (ledger, []) := by
  unfold stepNode
  by_cases hoff : interval < now - node.LastConnection
  · rw [if_pos hoff]
  · rw [if_neg hoff]
    cases haddr : node.addrInfo with
    | none => rfl
    | some peerID =>
      exact stepWindows_skip oracle node.Handle peerID batchSize
        (plan highest batchSize) ledger (hconv (Nat.le_of_not_lt hoff))

theorem stepNodes_skip (oracle : Oracle) (now interval batchSize highest : Nat) :
    ∀ (nodes : List Autoretrieve) (ledger : List PublishedBatch),
      (∀ node ∈ nodes, now - node.LastConnection ≤ interval →
        ∀ fc ∈ plan highest batchSize,
          (lookupBatches ledger node.Handle fc.1).head?.map PublishedBatch.Count =
            some fc.2) →
      stepNodes oracle now interval batchSize highest nodes ledger = (ledger, []) := by
  intro nodes
  induction nodes with
  | nil =>
    intro ledger hns
    rfl
  | cons node rest ih =>
    intro ledger hns
    have h1 := stepNode_skip oracle now interval batchSize highest node ledger
      (hns node (by simp))
    have h2 := ih ledger (fun n hn => hns n (by simp [hn]))
    simp only [stepNodes, h1, h2, List.nil_append]

/-- C7: when the ledger already matches the plan — for every online node,
every planned window has a ledger row whose count equals the planned count —
one tick issues zero publish and zero retract calls and leaves the whole
state unchanged; hence a second run over unchanged catalog and converged
ledger is a no-op. -/
theorem tick_converged_noop (oracle : Oracle) (now interval batchSize : Nat)
    (db : DB)
    (hconv : ∀ node ∈ db.autoretrieves, now - node.LastConnection ≤ interval →
      ∀ fc ∈ plannedWindows batchSize db,
        (lookupBatches db.published node.Handle fc.1).head?.map PublishedBatch.Count =
          some fc.2) :
    runTick oracle now interval batchSize db = (db, []) := by
  unfold runTick
  cases hlast : db.contents.getLast? with
  | none => rfl
  | some lastContent =>
    have hplanned : plannedWindows batchSize db = plan lastContent.ID batchSize := by
      simp [plannedWindows, hlast]
    rw [hplanned] at hconv
    have h := stepNodes_skip oracle now interval batchSize lastContent.ID
      db.autoretrieves db.published hconv
    simp only [h]

theorem tick_converged_noop_witness :
    (∀ node ∈ (⟨[⟨0⟩], [⟨"a", 0, some [0, 1, 42]⟩], [⟨0, 0, "a"⟩]⟩ : DB).autoretrieves,
      0 - node.LastConnection ≤ 5 →
      ∀ fc ∈ plannedWindows 25000 ⟨[⟨0⟩], [⟨"a", 0, some [0, 1, 42]⟩], [⟨0, 0, "a"⟩]⟩,
        (lookupBatches [⟨0, 0, "a"⟩] node.Handle fc.1).head?.map PublishedBatch.Count =
          some fc.2) ∧
    runTick allOK 0 5 25000 ⟨[⟨0⟩], [⟨"a", 0, some [0, 1, 42]⟩], [⟨0, 0, "a"⟩]⟩ =
      (⟨[⟨0⟩], [⟨"a", 0, some [0, 1, 42]⟩], [⟨0, 0, "a"⟩]⟩, []) :=
  ⟨by decide,
    tick_converged_noop allOK 0 5 25000
      ⟨[⟨0⟩], [⟨"a", 0, some [0, 1, 42]⟩], [⟨0, 0, "a"⟩]⟩ (by decide)⟩

/-- Bytes [4:8) of a minted context ID are exactly the encoded count
argument. -/
theorem makeContextID_widthBytes (p : List Nat) (f c : Nat) :
    ((makeContextID ⟨p, f, c⟩).drop 4).take 4 = putUint32 c := rfl

theorem stepWindow_calls (oracle : Oracle) (handle : String) (peerID : List Nat)
    (batchSize : Nat) (fc : Nat × Nat) (ledger : List PublishedBatch) :
    ∀ c ∈ (stepWindow oracle handle peerID batchSize fc ledger).2,
      c.contextID = makeContextID ⟨peerID, fc.1, batchSize⟩ := by
  intro c hc
  unfold stepWindow at hc
  split at hc
  · split at hc
    · split at hc
      · simp_all [Call.contextID]
      · simp_all [Call.contextID]
    · simp_all [Call.contextID]
  · split at hc
    · simp at hc
    · split at hc
      · simp at hc
        rcases hc with hc | hc <;> simp_all [Call.contextID]
      · simp at hc
        rcases hc with hc | hc <;> simp_all [Call.contextID]

theorem stepWindows_calls (oracle : Oracle) (handle : String) (peerID : List Nat)
    (batchSize : Nat) :
    ∀ (ws : List (Nat × Nat)) (ledger : List PublishedBatch),
      ∀ c ∈ (stepWindows oracle handle peerID batchSize ws ledger).2,
        ∃ first, c.contextID = makeContextID ⟨peerID, first, batchSize⟩ := by
  intro ws
  induction ws with
  | nil =>
    intro ledger c hc
    simp [stepWindows] at hc
  | cons fc rest ih =>
    intro ledger c hc
    simp only [stepWindows, List.mem_append] at hc
    rcases hc with hc | hc
    · exact ⟨fc.1, stepWindow_calls oracle handle peerID batchSize fc ledger c hc⟩
    · exact ih _ c hc

theorem stepNode_calls (oracle : Oracle) (now interval batchSize highest : Nat)
    (node : Autoretrieve) (ledger : List PublishedBatch) :
    ∀ c ∈ (stepNode oracle now interval batchSize highest node ledger).2,
      ∃ peerID first, node.addrInfo = some peerID ∧
        c.contextID = makeContextID ⟨peerID, first, batchSize⟩ := by
  intro c hc
  unfold stepNode at hc
  split at hc
  · simp at hc
  · split at hc
    · simp at hc
    · rename_i peerID haddr
      obtain ⟨first, hfirst⟩ :=
        stepWindows_calls oracle node.Handle peerID batchSize
          (plan highest batchSize) ledger c hc
      exact ⟨peerID, first, haddr, hfirst⟩

theorem stepNodes_calls (oracle : Oracle) (now interval batchSize highest : Nat) :
    ∀ (nodes : List Autoretrieve) (ledger : List PublishedBatch),
      ∀ c ∈ (stepNodes oracle now interval batchSize highest nodes ledger).2,
        ∃ node ∈ nodes, ∃ peerID first, node.addrInfo = some peerID ∧
          c.contextID = makeContextID ⟨peerID, first, batchSize⟩ := by
  intro nodes
  induction nodes with
  | nil =>
    intro ledger c hc
    simp [stepNodes] at hc
  | cons node rest ih =>
    intro ledger c hc
    simp only [stepNodes, List.mem_append] at hc
    rcases hc with hc | hc
    · obtain ⟨peerID, first, haddr, hctx⟩ :=
        stepNode_calls oracle now interval batchSize highest node ledger c hc
      exact ⟨node, by simp, peerID, first, haddr, hctx⟩
    · obtain ⟨n, hn, peerID, first, haddr, hctx⟩ := ih _ c hc
      exact ⟨n, by simp [hn], peerID, first, haddr, hctx⟩

/-- C8: every publish or retract call a tick issues carries a context ID
minted as makeContextID(peer, first, batchSize) — the configured batch width
in bytes [4:8), independent of the window's transient planned count and of
the current catalog height, so the handle of a partial last window is
byte-for-byte the one minted after the catalog grows. -/
theorem contextID_encodes_width (oracle : Oracle) (now interval batchSize : Nat)
    (db : DB) (c : Call)
    (hc : c ∈ (runTick oracle now interval batchSize db).2) :
    (∃ node ∈ db.autoretrieves, ∃ peerID first, node.addrInfo = some peerID ∧
      c.contextID = makeContextID ⟨peerID, first, batchSize⟩) ∧
    (c.contextID.drop 4).take 4 = putUint32 batchSize := by
  unfold runTick at hc
  split at hc
  · simp at hc
  · simp only at hc
    obtain ⟨node, hmem, peerID, first, haddr, hctx⟩ :=
      stepNodes_calls oracle now interval batchSize _ db.autoretrieves
        db.published c hc
    refine ⟨⟨node, hmem, peerID, first, haddr, hctx⟩, ?_⟩
    rw [hctx]
    rfl

theorem contextID_encodes_width_witness :
    Call.publish [0, 1, 42] (makeContextID ⟨[0, 1, 42], 0, 25000⟩) ∈
      (runTick allOK 0 5 25000 ⟨[⟨0⟩], [⟨"a", 0, some [0, 1, 42]⟩], []⟩).2 ∧
    ((∃ node ∈ (⟨[⟨0⟩], [⟨"a", 0, some [0, 1, 42]⟩], []⟩ : DB).autoretrieves,
        ∃ peerID first, node.addrInfo = some peerID ∧
          (Call.publish [0, 1, 42] (makeContextID ⟨[0, 1, 42], 0, 25000⟩)).contextID =
            makeContextID ⟨peerID, first, 25000⟩) ∧
      (((Call.publish [0, 1, 42]
          (makeContextID ⟨[0, 1, 42], 0, 25000⟩)).contextID.drop 4).take 4 =
        putUint32 25000)) :=
  ⟨by decide,
    contextID_encodes_width allOK 0 5 25000
      ⟨[⟨0⟩], [⟨"a", 0, some [0, 1, 42]⟩], []⟩
      (Call.publish [0, 1, 42] (makeContextID ⟨[0, 1, 42], 0, 25000⟩)) (by decide)⟩

end Estuary
